import Mathlib

/-
Verification of the LLM Council debate orchestration engine.
The definitions below are a shallow embedding of the relevant parts of the
source: the data model from the shared type declarations, the state-machine
transitions of the main application component, and the generation-service
helpers.  Calls to external generative providers are modelled by explicit
input parameters (the provider outcome is an argument of the embedded
function); JavaScript exceptions are modelled by Option/Except results, a
none/error value standing for a thrown exception.  JavaScript string and
boolean fields that may be absent or falsy are modelled by Option, with none
standing for absent/falsy.
-/

namespace LLMCouncil

/-- Agent role enumeration from the shared type declarations. -/
inductive AgentRole where
  | OPTIMIST | SKEPTIC | REALIST | VISIONARY | HISTORIAN
  | SCIENTIST | MODERATOR | ETHICIST | ECONOMIST | GUEST
deriving DecidableEq, Repr

/-- Debate phase enumeration from the shared type declarations. -/
inductive DebatePhase where
  | SETUP | OPENING | REBUTTAL | SYNTHESIS | VOTING | VERDICT | USER_INPUT
deriving DecidableEq, Repr

/-- Debate mode: fixed round count or auto-pilot. -/
inductive DebateMode where
  | FIXED | AUTO
deriving DecidableEq, Repr

/-- Severity of a detected fallacy. -/
inductive FallacySeverity where
  | minor | major
deriving DecidableEq, Repr

/-- A fallacy finding attached to a message. -/
structure Fallacy where
  name : String
  reason : String
  severity : FallacySeverity
deriving DecidableEq, Repr

/-- A citation record: title and uri. -/
structure Citation where
  title : String
  uri : String
deriving DecidableEq, Repr

/-- Message kind from the shared type declarations. -/
inductive MessageType where
  | text | research | vote | error
deriving DecidableEq, Repr

/-- A transcript message. -/
structure Message where
  id : String
  agentId : String
  content : String
  timestamp : Nat
  type : MessageType
  citations : Option (List Citation)
  phase : Option DebatePhase
  isGuest : Bool
  guestRole : Option String
  fallacy : Option Fallacy
deriving DecidableEq, Repr

/-- A vote cast by one agent for another. -/
structure Vote where
  voterId : String
  targetAgentId : String
  score : Int
  reason : String
deriving DecidableEq, Repr

/-- The final verdict produced at the end of a debate. -/
structure FinalVerdict where
  winnerId : String
  summary : String
  keyTakeaways : List String
  votes : List Vote
deriving DecidableEq, Repr

/-- Running token counts and estimated cost (cost units abstracted). -/
structure TokenUsage where
  inputTokens : Nat
  outputTokens : Nat
  totalCost : Nat
deriving DecidableEq, Repr

/-- An injected research context document. -/
structure ContextDocument where
  id : String
  content : String
  timestamp : Nat
deriving DecidableEq, Repr

/-- Descriptor of a summoned guest expert kept in the state. -/
structure SummonedGuest where
  name : String
  role : String
  reason : String
deriving DecidableEq, Repr

/-- A debate participant. -/
structure Agent where
  id : String
  name : String
  role : AgentRole
  systemPrompt : String
  avatarColor : String
  description : String
  modelOverride : Option String
deriving DecidableEq, Repr

/-- The full debate state owned by the state machine component. -/
structure DebateState where
  topic : String
  mode : DebateMode
  maxRounds : Nat
  currentRound : Nat
  phase : DebatePhase
  currentTurnAgentId : Option String
  transcript : List Message
  isThinking : Bool
  thinkingAgentId : Option String
  pendingUserQuestion : Option String
  finalVerdict : Option FinalVerdict
  tokenUsage : TokenUsage
  userRequestedStop : Bool
  showConsultationPrompt : Bool
  summonedGuest : Option SummonedGuest
  contextDocuments : List ContextDocument
deriving DecidableEq, Repr

/-- Helper mirroring the addMessage constructor of the application component:
builds a message with kind text and no fallacy attached. -/
def mkMessage (id agentId content : String) (timestamp : Nat)
    (citations : Option (List Citation)) (phase : Option DebatePhase)
    (isGuest : Bool) (guestRole : Option String) : Message :=
  { id := id, agentId := agentId, content := content, timestamp := timestamp,
    type := MessageType.text, citations := citations, phase := phase,
    isGuest := isGuest, guestRole := guestRole, fallacy := none }

/-- JavaScript Array.findIndex over the roster, as an Option result:
some i is the first index whose agent satisfies the predicate, none is the
JavaScript result -1. -/
def jsFindIndexOpt (p : Agent → Bool) : List Agent → Option Nat
  | [] => none
  | a :: rest => if p a then some 0 else (jsFindIndexOpt p rest).map (· + 1)

/-- Tail of advanceTurn: the common return path.  Mirrors the final part of
the source function: an immediate transition to VOTING clears the turn and
leaves round and thinking agent untouched; otherwise the agent at nextIndex
becomes the active turn.  A none result models the JavaScript TypeError
raised when agents[nextIndex] is undefined. -/
def finishAdvance (agents : List Agent) (prev : DebateState)
    (nextIndex : Nat) (nextPhase : DebatePhase) (nextRound : Nat) :
    Option DebateState :=
  if nextPhase = DebatePhase.VOTING then
    some { prev with currentTurnAgentId := none, phase := DebatePhase.VOTING,
                     isThinking := false }
  else
    match agents[nextIndex]? with
    | some a =>
        some { prev with currentTurnAgentId := some a.id, phase := nextPhase,
                         currentRound := nextRound, isThinking := false,
                         thinkingAgentId := none }
    | none => none

/-- The nextIndex computation of advanceTurn: the JavaScript findIndex
result plus one, with the not-found result -1 giving next index 0. -/
def nextIndexOf (agents : List Agent) (tid : Option String) : Nat :=
  match jsFindIndexOpt (fun a => some a.id == tid) agents with
  | some i => i + 1
  | none => 0

/-- The advanceTurn state transition of the application component.  The
emergency stop check runs first; at the end of the roster the
phase-transition logic runs, with fixed mode checking currentRound against
maxRounds at the end of SYNTHESIS and auto mode handing control to the
ORCHESTRATOR sentinel. -/
def advanceTurn (agents : List Agent) (prev : DebateState) :
    Option DebateState :=
  if prev.userRequestedStop then
    some { prev with currentTurnAgentId := none, phase := DebatePhase.VOTING,
                     isThinking := false }
  else
    if agents.length ≤ nextIndexOf agents prev.currentTurnAgentId then
      match prev.phase with
      | DebatePhase.OPENING =>
          finishAdvance agents prev 0 DebatePhase.REBUTTAL prev.currentRound
      | DebatePhase.REBUTTAL =>
          finishAdvance agents prev 0 DebatePhase.SYNTHESIS prev.currentRound
      | DebatePhase.SYNTHESIS =>
          match prev.mode with
          | DebateMode.FIXED =>
              if prev.maxRounds ≤ prev.currentRound then
                finishAdvance agents prev 0 DebatePhase.VOTING prev.currentRound
              else
                finishAdvance agents prev 0 DebatePhase.REBUTTAL
                  (prev.currentRound + 1)
          | DebateMode.AUTO =>
              some { prev with currentTurnAgentId := some "ORCHESTRATOR",
                               isThinking := false }
      | other => finishAdvance agents prev 0 other prev.currentRound
    else
      finishAdvance agents prev (nextIndexOf agents prev.currentTurnAgentId)
        prev.phase prev.currentRound

/-- The handleStop handler: sets the cooperative stop flag and appends an
informational system message (the addMessage call), leaving everything else
untouched.  The fresh message id and timestamp are inputs. -/
def handleStop (s : DebateState) (msgId : String) (now : Nat) : DebateState :=
  let s1 := { s with userRequestedStop := true }
  { s1 with transcript := s1.transcript ++
      [mkMessage msgId "system" "Debate stop requested. Concluding current phase..."
        now none (some s.phase) false none] }

/-- The handleDirectorForcePhase handler: forces an arbitrary phase, resets
the turn to the first agent (or to no active turn when forcing VOTING),
clears isThinking and clears the stop-request flag.  A none result models the
JavaScript TypeError on agents[0] when the roster is empty and the forced
phase is not VOTING. -/
def handleDirectorForcePhase (agents : List Agent) (phase : DebatePhase)
    (s : DebateState) : Option DebateState :=
  if phase = DebatePhase.VOTING then
    some { s with phase := phase, currentTurnAgentId := none,
                  isThinking := false, userRequestedStop := false }
  else
    match agents.head? with
    | some a0 =>
        some { s with phase := phase, currentTurnAgentId := some a0.id,
                      isThinking := false, userRequestedStop := false }
    | none => none

/-- A JavaScript error value as inspected by the retry helper: optional
numeric status and code fields and an optional message string. -/
structure JsError where
  status : Option Int
  code : Option Int
  message : Option String
deriving DecidableEq, Repr

/-- String needle used by the transient-error test. -/
def needle429 : String := "429"

/-- String needle used by the transient-error test. -/
def needleQuotaU : String := "Quota"

/-- String needle used by the transient-error test. -/
def needleQuotaL : String := "quota"

/-- Character-list prefix test used by the substring check. -/
def charsLeading : List Char → List Char → Bool
  | [], _ => true
  | _ :: _, [] => false
  | a :: pa, b :: pb => a == b && charsLeading pa pb

/-- Character-list substring containment (JavaScript String.includes). -/
def charsContain (s pat : List Char) : Bool :=
  match s with
  | [] => pat.isEmpty
  | _ :: rest => charsLeading pat s || charsContain rest pat

/-- JavaScript String.includes on an optional message (optional chaining:
an absent message yields false). -/
def msgHas (e : JsError) (pat : String) : Bool :=
  match e.message with
  | some m => charsContain m.toList pat.toList
  | none => false

/-- The transient-failure test of generateContentWithRetry: status or code
429, a message containing 429 / Quota / quota, or status 503. -/
def isTransientError (e : JsError) : Bool :=
  e.status == some 429 || e.code == some 429 ||
  msgHas e needle429 || msgHas e needleQuotaU || msgHas e needleQuotaL ||
  e.status == some 503

/-- The generateContentWithRetry helper of the generation client.  The
provider is modelled as a function from the attempt number to that attempt
outcome.  The result pairs the final outcome with the list of backoff delays
slept (in milliseconds) before each re-attempt.  A retry happens only while
retries remain and the error is transient; the backoff doubles each time. -/
def generateContentWithRetry {α : Type} (call : Nat → Except JsError α)
    (attempt : Nat) (retries : Nat) (backoff : Nat) :
    Except JsError α × List Nat :=
  match call attempt with
  | Except.ok r => (Except.ok r, [])
  | Except.error e =>
    match retries with
    | 0 => (Except.error e, [])
    | rr + 1 =>
      if isTransientError e then
        let p := generateContentWithRetry call (attempt + 1) rr (backoff * 2)
        (p.1, backoff :: p.2)
      else (Except.error e, [])

/-- Token counters of a provider response (each field may be absent). -/
structure UsageMeta where
  promptTokenCount : Option Nat
  candidatesTokenCount : Option Nat
deriving DecidableEq, Repr

/-- Arguments of an emitted tool invocation: the askUser question or the
search_web query, each possibly absent. -/
structure ToolArgs where
  question : Option String
  query : Option String
deriving DecidableEq, Repr

/-- A tool invocation emitted by a generation call. -/
structure ToolCall where
  name : String
  args : ToolArgs
  id : String
deriving DecidableEq, Repr

/-- The normalized response shape returned by the unified generator. -/
structure GenericResponse where
  text : String
  citations : Option (List Citation)
  toolCall : Option ToolCall
  usage : Option UsageMeta
  searchQueries : Nat
deriving DecidableEq, Repr

/-- The generateAgentTurn service.  The underlying unified generator call is
an input (error standing for a thrown exception).  A tool-call response is
returned as is; otherwise empty text falls back to a stock sentence; a thrown
error degrades to the fixed filler message with empty usage. -/
def generateAgentTurn (outcome : Except Unit GenericResponse) :
    GenericResponse :=
  match outcome with
  | Except.error _ =>
      { text := "Error generating response.", citations := none,
        toolCall := none, usage := some { promptTokenCount := none,
                                          candidatesTokenCount := none },
        searchQueries := 0 }
  | Except.ok r =>
      match r.toolCall with
      | some _ => r
      | none =>
          { text := if r.text = "" then "I have no further comments." else r.text,
            citations := r.citations, toolCall := none,
            usage := r.usage, searchQueries := r.searchQueries }

/-- The structured output parsed from a vote response (each field may be
absent or falsy; none stands for both). -/
structure VoteJson where
  targetAgentId : Option String
  score : Option Int
  reason : Option String
deriving DecidableEq, Repr

/-- The castVote service.  The parse outcome of the generation response is an
input: none stands for a JSON.parse exception (caught, keeping the default
vote), some j for a parsed object whose fields default when absent/falsy.
The candidate list filters the voter out of the supplied roster; a none
result models the JavaScript TypeError on candidates[0] when that list is
empty (raised while constructing the default vote, before any try block). -/
def castVote (agent : Agent) (otherAgents : List Agent)
    (parsed : Option VoteJson) : Option Vote :=
  match otherAgents.filter (fun a => a.id != agent.id) with
  | [] => none
  | c0 :: _ =>
    match parsed with
    | none =>
        some { voterId := agent.id, targetAgentId := c0.id, score := 5,
               reason := "Default" }
    | some j =>
        some { voterId := agent.id, targetAgentId := j.targetAgentId.getD c0.id,
               score := j.score.getD 5, reason := j.reason.getD "Good points." }

/-- The sequential vote-collection loop of the voting branch of the debate
step.  The per-agent call outcome is an input: none stands for a thrown
generation error (caught and skipped); some parsed feeds castVote, whose own
exception (empty candidate list) is also caught and skipped. -/
def collectVotes (loopAgents roster : List Agent)
    (oracle : Agent → Option (Option VoteJson)) : List Vote :=
  match loopAgents with
  | [] => []
  | a :: rest =>
    match oracle a with
    | none => collectVotes rest roster oracle
    | some parsed =>
      match castVote a roster parsed with
      | none => collectVotes rest roster oracle
      | some v => v :: collectVotes rest roster oracle

/-- The structured output parsed from the verdict response. -/
structure VerdictJson where
  winnerId : Option String
  summary : Option String
  keyTakeaways : Option (List String)
deriving DecidableEq, Repr

/-- The generateFinalVerdict service: builds the verdict from the parsed
structured output (none standing for a parse failure, giving the empty
object), defaulting the winner to the first agent, and always carrying the
collected vote set through unchanged.  A none result models the JavaScript
TypeError on agents[0] when the roster is empty and no winner id parsed. -/
def generateFinalVerdict (agents : List Agent) (parsed : Option VerdictJson)
    (votes : List Vote) : Option FinalVerdict :=
  let j := parsed.getD { winnerId := none, summary := none, keyTakeaways := none }
  match j.winnerId with
  | some w =>
      some { winnerId := w, summary := j.summary.getD "Debate concluded.",
             keyTakeaways := j.keyTakeaways.getD [], votes := votes }
  | none =>
      match agents.head? with
      | some a0 =>
          some { winnerId := a0.id, summary := j.summary.getD "Debate concluded.",
                 keyTakeaways := j.keyTakeaways.getD [], votes := votes }
      | none => none

/-- Guest-expert descriptor inside an orchestrator decision. -/
structure GuestSpec where
  name : String
  role : String
  systemPrompt : String
  reason : String
deriving DecidableEq, Repr

/-- The structured output parsed from the orchestrator response. -/
structure OrchJson where
  shouldConclude : Option Bool
  guidance : Option String
  shouldConsultUser : Option Bool
  summonGuest : Option GuestSpec
deriving DecidableEq, Repr

/-- The decision record produced by orchestratorDecide. -/
structure OrchestratorDecision where
  shouldConclude : Bool
  guidance : String
  shouldConsultUser : Bool
  summonGuest : Option GuestSpec
deriving DecidableEq, Repr

/-- The orchestratorDecide service on a response whose call succeeded: the
parse outcome is an input (none standing for unusable output, giving the
empty object).  shouldConclude falls back to currentRound > 5 when the
parsed field is absent or false (JavaScript ||); guidance and
shouldConsultUser default likewise. -/
def orchestratorDecide (currentRound : Nat) (parsed : Option OrchJson) :
    OrchestratorDecision :=
  let j := parsed.getD { shouldConclude := none, guidance := none,
                         shouldConsultUser := none, summonGuest := none }
  { shouldConclude := j.shouldConclude.getD false || decide (5 < currentRound),
    guidance := j.guidance.getD "Continue the debate.",
    shouldConsultUser := j.shouldConsultUser.getD false,
    summonGuest := j.summonGuest }

/-- The updateMessageFallacy mutation of the application component: map over
the transcript, attaching the fallacy to every message whose id matches. -/
def updateMessageFallacy (msgId : String) (fallacy : Fallacy)
    (transcript : List Message) : List Message :=
  transcript.map (fun m => if m.id = msgId then { m with fallacy := some fallacy } else m)

/-- The orchestrator branch of the main debate step (auto mode).  The
orchestratorDecide call outcome is an input: error stands for a thrown
exception, caught by the fallback-continue handler; ok json carries the
parse outcome of a completed call.  The guest-turn generation (which never
throws) is abstracted by its resulting text and citations; fresh message ids
and the clock are inputs.  A none result models the JavaScript TypeError on
agents[0] with an empty roster. -/
def orchestratorBranch (agents : List Agent) (s : DebateState)
    (call : Except Unit (Option OrchJson))
    (guestText : String) (guestCitations : Option (List Citation))
    (id1 id2 : String) (now : Nat) : Option DebateState :=
  match call with
  | Except.error _ =>
    match agents.head? with
    | some a0 =>
        some { s with currentTurnAgentId := some a0.id,
                      phase := DebatePhase.REBUTTAL, isThinking := false }
    | none => none
  | Except.ok json =>
    let decision := orchestratorDecide s.currentRound json
    if decision.shouldConclude || s.userRequestedStop then
      some { s with
        transcript := s.transcript ++
          [mkMessage id1 "system" ("Chairperson Concluding: " ++ decision.guidance)
            now none (some s.phase) false none],
        currentTurnAgentId := none, phase := DebatePhase.VOTING,
        isThinking := false }
    else
      match decision.summonGuest with
      | some guest =>
        match agents.head? with
        | none => none
        | some a0 =>
          some { s with
            transcript := s.transcript ++
              [mkMessage id1 "agent-chairperson"
                ("(Summoning Expert) I am calling upon " ++ guest.name ++ ", a "
                  ++ guest.role ++ ", to clarify this point because: " ++ guest.reason)
                now none (some s.phase) false none,
               { id := id2, agentId := guest.name, content := guestText,
                 timestamp := now, type := MessageType.text,
                 citations := guestCitations, phase := some s.phase,
                 isGuest := true, guestRole := some guest.role, fallacy := none }],
            summonedGuest := none,
            currentTurnAgentId := some a0.id, phase := DebatePhase.REBUTTAL,
            currentRound := s.currentRound + 1, isThinking := false }
      | none =>
        if decision.shouldConsultUser then
          some { s with
            transcript := s.transcript ++
              [mkMessage id1 "agent-chairperson" decision.guidance
                now none (some s.phase) false none],
            isThinking := false, showConsultationPrompt := true }
        else
          match agents.head? with
          | none => none
          | some a0 =>
            some { s with
              transcript := s.transcript ++
                [mkMessage id1 "agent-chairperson" decision.guidance
                  now none (some s.phase) false none],
              currentTurnAgentId := some a0.id, phase := DebatePhase.REBUTTAL,
              currentRound := s.currentRound + 1, isThinking := false }

/-- The start-turn branch of the main debate step.  The generateAgentTurn
provider outcome and the tool-resume generation outcome (for the search_web
path, where a thrown generateToolResponse error reaches the outer catch and
still advances the turn) are inputs, as are the fresh message id and clock.
The branch first marks the state thinking, then looks the active agent up in
the roster (an unknown id aborts the step and leaves the state thinking);
an askUser tool call suspends into USER_INPUT; a search_web tool call
resolves synchronously and advances; a plain text result is appended to the
transcript and the rotation advances. -/
def startTurnStep (agents : List Agent) (s : DebateState)
    (genOutcome : Except Unit GenericResponse)
    (toolRespOutcome : Except Unit GenericResponse)
    (msgId : String) (now : Nat) : Option DebateState :=
  let s1 := { s with isThinking := true, thinkingAgentId := s.currentTurnAgentId }
  match agents.find? (fun a => some a.id == s.currentTurnAgentId) with
  | none => some s1
  | some agent =>
    let result := generateAgentTurn genOutcome
    match result.toolCall with
    | some tc =>
      if tc.name = "askUser" then
        some { s1 with isThinking := false, phase := DebatePhase.USER_INPUT,
                       pendingUserQuestion := tc.args.question }
      else if tc.name = "search_web" then
        match toolRespOutcome with
        | Except.error _ => advanceTurn agents s1
        | Except.ok tr =>
          let finalText := if tr.text = "" then "Acknowledged." else tr.text
          advanceTurn agents
            { s1 with transcript := s1.transcript ++
                [mkMessage msgId agent.id finalText now tr.citations
                  (some s.phase) false none] }
      else some s1
    | none =>
      advanceTurn agents
        { s1 with transcript := s1.transcript ++
            [mkMessage msgId agent.id result.text now result.citations
              (some s.phase) false none] }

/-- One advanceTurn step between two states. -/
def advStep (agents : List Agent) (s t : DebateState) : Prop :=
  advanceTurn agents s = some t

/-- Number of SYNTHESIS-to-REBUTTAL loop-backs along a trace of states. -/
def loopbackCount (s : DebateState) : List DebateState → Nat
  | [] => 0
  | t :: rest =>
    (if s.phase = DebatePhase.SYNTHESIS ∧ t.phase = DebatePhase.REBUTTAL
     then 1 else 0) + loopbackCount t rest

/-! Concrete fixtures used by witness and counterexample theorems. -/

/-- A concrete roster agent. -/
def wAgentA : Agent :=
  { id := "a", name := "Ada", role := AgentRole.OPTIMIST, systemPrompt := "sp",
    avatarColor := "col", description := "d", modelOverride := none }

/-- A concrete roster agent. -/
def wAgentB : Agent := { wAgentA with id := "b", name := "Bo" }

/-- A concrete roster agent. -/
def wAgentC : Agent := { wAgentA with id := "c", name := "Cy" }

/-- A concrete debate state used as a base by witnesses. -/
def wStateBase : DebateState :=
  { topic := "t", mode := DebateMode.FIXED, maxRounds := 2, currentRound := 1,
    phase := DebatePhase.OPENING, currentTurnAgentId := some "a",
    transcript := [], isThinking := false, thinkingAgentId := none,
    pendingUserQuestion := none, finalVerdict := none,
    tokenUsage := { inputTokens := 0, outputTokens := 0, totalCost := 0 },
    userRequestedStop := false, showConsultationPrompt := false,
    summonedGuest := none, contextDocuments := [] }

/-- C2: whenever the stop-requested flag is set, the next advanceTurn
boundary forces phase VOTING and clears the active turn, regardless of the
current phase, round or agent; the handleStop handler itself only sets the
flag and appends a system message, changing neither phase nor turn, so the
flag is honored only at the rotation boundary. -/
theorem stop_flag_forces_voting (agents : List Agent) (s : DebateState)
    (msgId : String) (now : Nat) (h : s.userRequestedStop = true) :
    advanceTurn agents s
      = some { s with currentTurnAgentId := none,
                      phase := DebatePhase.VOTING, isThinking := false }
    ∧ (handleStop s msgId now).phase = s.phase
    ∧ (handleStop s msgId now).currentTurnAgentId = s.currentTurnAgentId
    ∧ (handleStop s msgId now).isThinking = s.isThinking
    ∧ (handleStop s msgId now).currentRound = s.currentRound
    ∧ (handleStop s msgId now).userRequestedStop = true
    ∧ advanceTurn agents (handleStop s msgId now)
      = some { (handleStop s msgId now) with
               currentTurnAgentId := none,
               phase := DebatePhase.VOTING, isThinking := false } := by
  refine ⟨?_, rfl, rfl, rfl, rfl, rfl, ?_⟩
  · simp [advanceTurn, h]
  · simp [advanceTurn, handleStop]

/-- Witness for stop_flag_forces_voting at a concrete state. -/
theorem stop_flag_forces_voting_witness :
    advanceTurn [wAgentA, wAgentB] { wStateBase with userRequestedStop := true }
      = some { { wStateBase with userRequestedStop := true } with
               currentTurnAgentId := none, phase := DebatePhase.VOTING,
               isThinking := false } :=
  (stop_flag_forces_voting [wAgentA, wAgentB]
    { wStateBase with userRequestedStop := true } "m" 0 rfl).1

/-- C10: the director force-phase override always clears the stop-requested
flag, whatever phase is forced and whatever the previous state, so a pending
not-yet-honored stop request is silently cancelled. -/
theorem forcePhase_clears_stop (agents : List Agent) (phase : DebatePhase)
    (s t : DebateState) (h : handleDirectorForcePhase agents phase s = some t) :
    t.userRequestedStop = false ∧ t.phase = phase ∧ t.isThinking = false := by
  unfold handleDirectorForcePhase at h
  split at h
  · simp only [Option.some.injEq] at h
    subst h
    exact ⟨rfl, by simp [*], rfl⟩
  · cases hh : agents.head? with
    | none => rw [hh] at h; cases h
    | some a0 =>
        rw [hh] at h
        simp only [Option.some.injEq] at h
        subst h
        exact ⟨rfl, rfl, rfl⟩

/-- Witness for forcePhase_clears_stop: forcing OPENING on a stopped state
clears the flag. -/
theorem forcePhase_clears_stop_witness :
    ({ { wStateBase with userRequestedStop := true } with
        phase := DebatePhase.OPENING, currentTurnAgentId := some wAgentA.id,
        isThinking := false, userRequestedStop := false } : DebateState).userRequestedStop
      = false :=
  (forcePhase_clears_stop [wAgentA] DebatePhase.OPENING
    { wStateBase with userRequestedStop := true } _ rfl).1

/-- C9: castVote needs at least one roster agent other than the voter: with
an empty candidate list the default-vote construction dereferences an absent
first candidate (modelled by the none result, the thrown TypeError) and no
vote is returned; with a nonempty candidate list a vote is always returned. -/
theorem castVote_requires_candidate (agent : Agent) (roster : List Agent)
    (parsed : Option VoteJson) :
    (roster.filter (fun a => a.id != agent.id) = [] →
        castVote agent roster parsed = none)
    ∧ ∀ c cs, roster.filter (fun a => a.id != agent.id) = c :: cs →
        (castVote agent roster parsed).isSome = true := by
  constructor
  · intro h
    simp [castVote, h]
  · intro c cs h
    cases parsed <;> simp [castVote, h]

/-- Witness for castVote_requires_candidate: a voter who is the only roster
agent gets no vote back. -/
theorem castVote_requires_candidate_witness :
    castVote wAgentA [wAgentA] none = none :=
  (castVote_requires_candidate wAgentA [wAgentA] none).1 (by decide)

/-- C5: the primary-provider retry policy.  A success returns immediately;
a non-transient error propagates immediately with no backoff; two transient
failures followed by a success return that success after backoffs of 2000ms
and 4000ms; four consecutive transient failures propagate the fourth error
after backoffs of 2000ms, 4000ms and 8000ms (at most 3 retries). -/
theorem generateContentWithRetry_policy {α : Type}
    (call : Nat → Except JsError α) (r : α) (e0 e1 e2 e3 : JsError) :
    (call 0 = Except.ok r →
        generateContentWithRetry call 0 3 2000 = (Except.ok r, []))
    ∧ (call 0 = Except.error e0 → isTransientError e0 = false →
        generateContentWithRetry call 0 3 2000 = (Except.error e0, []))
    ∧ (call 0 = Except.error e0 → isTransientError e0 = true →
       call 1 = Except.error e1 → isTransientError e1 = true →
       call 2 = Except.ok r →
        generateContentWithRetry call 0 3 2000 = (Except.ok r, [2000, 4000]))
    ∧ (call 0 = Except.error e0 → isTransientError e0 = true →
       call 1 = Except.error e1 → isTransientError e1 = true →
       call 2 = Except.error e2 → isTransientError e2 = true →
       call 3 = Except.error e3 →
        generateContentWithRetry call 0 3 2000
          = (Except.error e3, [2000, 4000, 8000])) := by
  refine ⟨?_, ?_, ?_, ?_⟩
  · intro h0
    simp [generateContentWithRetry, h0]
  · intro h0 ht0
    simp [generateContentWithRetry, h0, ht0]
  · intro h0 ht0 h1 ht1 h2
    simp [generateContentWithRetry, h0, ht0, h1, ht1, h2]
  · intro h0 ht0 h1 ht1 h2 ht2 h3
    simp [generateContentWithRetry, h0, ht0, h1, ht1, h2, ht2, h3]

/-- A concrete provider-outcome stream: transient rate-limit errors on the
first two attempts, then success. -/
def wCall : Nat → Except JsError Nat := fun n =>
  if n < 2 then Except.error { status := some 429, code := none, message := none }
  else Except.ok 7

/-- Witness for generateContentWithRetry_policy on the concrete stream. -/
theorem generateContentWithRetry_policy_witness :
    generateContentWithRetry wCall 0 3 2000 = (Except.ok 7, [2000, 4000]) :=
  (generateContentWithRetry_policy wCall 7
      { status := some 429, code := none, message := none }
      { status := some 429, code := none, message := none }
      { status := some 429, code := none, message := none }
      { status := some 429, code := none, message := none }).2.2.1
    rfl rfl rfl rfl rfl

/-- C8: attaching a fallacy finding to a message id absent from the
transcript leaves the transcript entirely unchanged; when present, each
message keeps every field except that the matching message gets the fallacy
attached, so only the target changes and only in its fallacy field. -/
theorem updateMessageFallacy_frame (msgId : String) (f : Fallacy)
    (transcript : List Message) :
    (msgId ∉ transcript.map Message.id →
        updateMessageFallacy msgId f transcript = transcript)
    ∧ (updateMessageFallacy msgId f transcript).length = transcript.length
    ∧ ∀ (i : Nat) (m m2 : Message), transcript[i]? = some m →
        (updateMessageFallacy msgId f transcript)[i]? = some m2 →
        m2.id = m.id ∧ m2.agentId = m.agentId ∧ m2.content = m.content
        ∧ m2.timestamp = m.timestamp ∧ m2.type = m.type
        ∧ m2.citations = m.citations ∧ m2.phase = m.phase
        ∧ m2.isGuest = m.isGuest ∧ m2.guestRole = m.guestRole
        ∧ (m.id = msgId → m2.fallacy = some f)
        ∧ (m.id ≠ msgId → m2 = m) := by
  refine ⟨?_, by simp [updateMessageFallacy], ?_⟩
  · induction transcript with
    | nil => intro _; rfl
    | cons m rest ih =>
        intro hno
        simp only [List.map_cons, List.mem_cons, not_or] at hno
        obtain ⟨h1, h2⟩ := hno
        simp only [updateMessageFallacy, List.map_cons] at ih ⊢
        rw [if_neg (fun h => h1 h.symm), ih h2]
  · intro i m m2 h1 h2
    simp only [updateMessageFallacy, List.getElem?_map, h1,
      Option.map_some', Option.some.injEq] at h2
    by_cases hid : m.id = msgId
    · rw [if_pos hid] at h2
      subst h2
      exact ⟨rfl, rfl, rfl, rfl, rfl, rfl, rfl, rfl, rfl, fun _ => rfl,
        fun hne => absurd hid hne⟩
    · rw [if_neg hid] at h2
      subst h2
      exact ⟨rfl, rfl, rfl, rfl, rfl, rfl, rfl, rfl, rfl,
        fun h => absurd h hid, fun _ => rfl⟩

/-- A concrete transcript message used by witnesses. -/
def wMsg1 : Message :=
  mkMessage "m1" "a" "hello" 5 none (some DebatePhase.OPENING) false none

/-- A concrete fallacy finding used by witnesses. -/
def wFallacy : Fallacy :=
  { name := "Strawman", reason := "r", severity := FallacySeverity.minor }

/-- Witness for updateMessageFallacy_frame: attaching to an absent id leaves
the concrete transcript unchanged. -/
theorem updateMessageFallacy_frame_witness :
    updateMessageFallacy "zz" wFallacy [wMsg1] = [wMsg1] :=
  (updateMessageFallacy_frame "zz" wFallacy [wMsg1]).1 (by decide)

/-- The voter id of any vote returned by castVote is the voting agent. -/
theorem castVote_voterId {agent : Agent} {roster : List Agent}
    {parsed : Option VoteJson} {v : Vote}
    (h : castVote agent roster parsed = some v) : v.voterId = agent.id := by
  unfold castVote at h
  split at h
  · cases h
  · split at h <;>
      (simp only [Option.some.injEq] at h; subst h; rfl)

/-- Every vote collected by the voting loop comes from some loop agent whose
call did not fail, and carries that agent as its voter. -/
theorem collectVotes_origin (loopAgents roster : List Agent)
    (oracle : Agent → Option (Option VoteJson)) :
    ∀ v ∈ collectVotes loopAgents roster oracle,
      ∃ a, a ∈ loopAgents ∧ oracle a ≠ none ∧ v.voterId = a.id := by
  induction loopAgents with
  | nil => intro v hv; simp [collectVotes] at hv
  | cons a rest ih =>
      intro v hv
      cases ho : oracle a with
      | none =>
          simp only [collectVotes, ho] at hv
          obtain ⟨b, hb1, hb2, hb3⟩ := ih v hv
          exact ⟨b, List.mem_cons_of_mem a hb1, hb2, hb3⟩
      | some parsed =>
          cases hc : castVote a roster parsed with
          | none =>
              simp only [collectVotes, ho, hc] at hv
              obtain ⟨b, hb1, hb2, hb3⟩ := ih v hv
              exact ⟨b, List.mem_cons_of_mem a hb1, hb2, hb3⟩
          | some v0 =>
              simp only [collectVotes, ho, hc] at hv
              rcases List.mem_cons.mp hv with heq | hmem
              · subst heq
                exact ⟨a, List.mem_cons_self a rest,
                  by simp [ho], castVote_voterId hc⟩
              · obtain ⟨b, hb1, hb2, hb3⟩ := ih v hmem
                exact ⟨b, List.mem_cons_of_mem a hb1, hb2, hb3⟩

/-- The voting loop collects at most one vote per loop agent. -/
theorem collectVotes_length (loopAgents roster : List Agent)
    (oracle : Agent → Option (Option VoteJson)) :
    (collectVotes loopAgents roster oracle).length ≤ loopAgents.length := by
  induction loopAgents with
  | nil => simp [collectVotes]
  | cons a rest ih =>
      cases ho : oracle a with
      | none =>
          simp only [collectVotes, ho, List.length_cons]
          exact Nat.le_trans ih (Nat.le_succ _)
      | some parsed =>
          cases hc : castVote a roster parsed with
          | none =>
              simp only [collectVotes, ho, hc, List.length_cons]
              exact Nat.le_trans ih (Nat.le_succ _)
          | some v =>
              simp only [collectVotes, ho, hc, List.length_cons]
              exact Nat.succ_le_succ ih

/-- C3 (amended): the collected vote set never exceeds the roster size and
every voter id belongs to the roster; the target id, however, is recorded
from the model output unvalidated (see the counterexample), so only the
voter-side half of the roster membership holds in general. -/
theorem collectVotes_length_voter (agents : List Agent)
    (oracle : Agent → Option (Option VoteJson)) :
    (collectVotes agents agents oracle).length ≤ agents.length
    ∧ ∀ v ∈ collectVotes agents agents oracle,
        v.voterId ∈ agents.map Agent.id := by
  refine ⟨collectVotes_length agents agents oracle, ?_⟩
  intro v hv
  obtain ⟨a, ha1, _, ha3⟩ := collectVotes_origin agents agents oracle v hv
  rw [ha3]
  exact List.mem_map_of_mem Agent.id ha1

/-- A per-agent vote-call oracle under which the first agent receives a
model response naming a target outside the roster and the second call
fails. -/
def cexOracle : Agent → Option (Option VoteJson) := fun a =>
  if a.id = "a" then
    some (some { targetAgentId := some "intruder", score := some 9,
                 reason := some "why" })
  else none

/-- Counterexample to C3 as stated: with the oracle above, the collected
vote set contains a vote whose targetAgentId is not an agent id of the
roster, because castVote records the model-supplied target unvalidated. -/
theorem castVote_target_outside_roster_cex :
    collectVotes [wAgentA, wAgentB] [wAgentA, wAgentB] cexOracle
      = [{ voterId := "a", targetAgentId := "intruder", score := 9,
           reason := "why" }]
    ∧ "intruder" ∉ [wAgentA, wAgentB].map Agent.id := by
  exact ⟨rfl, by decide⟩

/-- Witness for collectVotes_length_voter on the concrete roster. -/
theorem collectVotes_length_voter_witness :
    (collectVotes [wAgentA, wAgentB] [wAgentA, wAgentB] cexOracle).length ≤ 2
    ∧ "a" ∈ [wAgentA, wAgentB].map Agent.id :=
  ⟨(collectVotes_length_voter [wAgentA, wAgentB] cexOracle).1,
   (collectVotes_length_voter [wAgentA, wAgentB] cexOracle).2
     { voterId := "a", targetAgentId := "intruder", score := 9, reason := "why" }
     (by decide)⟩

/-- Skipping every loop agent whose id matches a failing id does not change
the collected votes, provided all matching agents indeed fail. -/
theorem collectVotes_skip (loopAgents roster : List Agent)
    (oracle : Agent → Option (Option VoteJson)) (bid : String)
    (hskip : ∀ a ∈ loopAgents, a.id = bid → oracle a = none) :
    collectVotes loopAgents roster oracle
      = collectVotes (loopAgents.filter (fun a => a.id != bid)) roster oracle := by
  induction loopAgents with
  | nil => rfl
  | cons a rest ih =>
      have hrest : ∀ x ∈ rest, x.id = bid → oracle x = none :=
        fun x hx => hskip x (List.mem_cons_of_mem a hx)
      by_cases hid : a.id = bid
      · have ho : oracle a = none := hskip a (List.mem_cons_self a rest) hid
        have hfa : (a :: rest).filter (fun x => x.id != bid)
            = rest.filter (fun x => x.id != bid) := by
          simp [List.filter_cons, hid]
        rw [hfa]
        simp only [collectVotes, ho]
        exact ih hrest
      · have hfa : (a :: rest).filter (fun x => x.id != bid)
            = a :: rest.filter (fun x => x.id != bid) := by
          simp [List.filter_cons, hid]
        rw [hfa]
        cases ho : oracle a with
        | none =>
            simp only [collectVotes, ho]
            exact ih hrest
        | some parsed =>
            cases hc : castVote a roster parsed with
            | none =>
                simp only [collectVotes, ho, hc]
                exact ih hrest
            | some v =>
                simp only [collectVotes, ho, hc]
                rw [ih hrest]

/-- C7: when an agent's vote call fails during the voting pass, no vote
carrying that agent's voter id appears in the collected set (nothing is
fabricated for it), the collected set is exactly the one obtained with that
agent skipped, and generateFinalVerdict always runs on and embeds this
possibly-smaller vote set. -/
theorem failed_vote_omitted (agents : List Agent) (b : Agent)
    (oracle : Agent → Option (Option VoteJson)) (vj : Option VerdictJson)
    (hb : b ∈ agents) (hnd : (agents.map Agent.id).Nodup)
    (hfail : oracle b = none) :
    (∀ v ∈ collectVotes agents agents oracle, v.voterId ≠ b.id)
    ∧ collectVotes agents agents oracle
        = collectVotes (agents.filter (fun a => a.id != b.id)) agents oracle
    ∧ ∀ fv, generateFinalVerdict agents vj (collectVotes agents agents oracle)
          = some fv → fv.votes = collectVotes agents agents oracle := by
  have hinj := List.inj_on_of_nodup_map hnd
  have hskip : ∀ a ∈ agents, a.id = b.id → oracle a = none := by
    intro a ha hid
    have hab : a = b := hinj ha hb hid
    rw [hab]
    exact hfail
  refine ⟨?_, collectVotes_skip agents agents oracle b.id hskip, ?_⟩
  · intro v hv hvb
    obtain ⟨a, ha1, ha2, ha3⟩ := collectVotes_origin agents agents oracle v hv
    exact ha2 (hskip a ha1 (ha3.symm.trans hvb))
  · intro fv hfv
    simp only [generateFinalVerdict] at hfv
    cases hw : (vj.getD { winnerId := none, summary := none,
                          keyTakeaways := none }).winnerId with
    | some w =>
        simp only [hw] at hfv
        cases Option.some.inj hfv
        rfl
    | none =>
        simp only [hw] at hfv
        cases hh : agents.head? with
        | none => simp only [hh] at hfv; cases hfv
        | some a0 =>
            simp only [hh] at hfv
            cases Option.some.inj hfv
            rfl

/-- A vote-call oracle under which only the agent with id b fails: every
other call succeeds with unusable structured output (default vote). -/
def wOracle7 : Agent → Option (Option VoteJson) := fun a =>
  if a.id = "b" then none else some none

/-- Witness for failed_vote_omitted on the concrete three-agent roster with
the middle agent failing: the collected votes equal the collection that
skips that agent. -/
theorem failed_vote_omitted_witness :
    collectVotes [wAgentA, wAgentB, wAgentC] [wAgentA, wAgentB, wAgentC] wOracle7
      = collectVotes
          ([wAgentA, wAgentB, wAgentC].filter (fun a => a.id != wAgentB.id))
          [wAgentA, wAgentB, wAgentC] wOracle7 :=
  (failed_vote_omitted [wAgentA, wAgentB, wAgentC] wAgentB wOracle7 none
    (by decide) (by decide) rfl).2.1

/-- A concrete auto-mode state in round 6 awaiting the orchestrator. -/
def cexState6 : DebateState :=
  { wStateBase with mode := DebateMode.AUTO, currentRound := 6,
                    phase := DebatePhase.SYNTHESIS,
                    currentTurnAgentId := some "ORCHESTRATOR" }

/-- Counterexample to C4 as stated: at round 6 (past round 5) a completely
failed orchestrator call does not conclude the debate; the catch handler
continues at REBUTTAL with the round unchanged, so no decision with
shouldConclude true is ever produced on this path. -/
theorem orchestrator_failure_continues_cex :
    (orchestratorBranch [wAgentA, wAgentB] cexState6 (Except.error ())
        "" none "m1" "m2" 0).map DebateState.phase
      = some DebatePhase.REBUTTAL
    ∧ (orchestratorBranch [wAgentA, wAgentB] cexState6 (Except.error ())
        "" none "m1" "m2" 0).map DebateState.currentRound
      = some 6
    ∧ (orchestratorBranch [wAgentA, wAgentB] cexState6 (Except.error ())
        "" none "m1" "m2" 0).map DebateState.phase
      ≠ some DebatePhase.VOTING := by
  refine ⟨rfl, rfl, ?_⟩
  intro h
  simp only [orchestratorBranch, Option.map_some'] at h
  cases h

/-- C4 (amended): when the orchestrator call returns, shouldConclude is true
past round 5 whatever the parse outcome (the || currentRound > 5 fallback,
covering unusable structured output); when the call fails entirely, no
decision exists and the catch handler of the debate step continues the
debate at REBUTTAL with the first agent and an unchanged round, regardless
of the current round. -/
theorem orchestrator_fallback_behavior (r : Nat) (agents : List Agent)
    (s : DebateState) (a0 : Agent) (json : Option OrchJson)
    (hhead : agents.head? = some a0) (hr : 5 < r) :
    (orchestratorDecide r json).shouldConclude = true
    ∧ ∀ gt gc i1 i2 now,
        orchestratorBranch agents s (Except.error ()) gt gc i1 i2 now
          = some { s with currentTurnAgentId := some a0.id,
                          phase := DebatePhase.REBUTTAL,
                          isThinking := false } := by
  constructor
  · simp [orchestratorDecide, hr]
  · intro gt gc i1 i2 now
    simp only [orchestratorBranch, hhead]

/-- Witness for orchestrator_fallback_behavior: the round-6 decision on
unusable structured output concludes. -/
theorem orchestrator_fallback_behavior_witness :
    (orchestratorDecide 6 none).shouldConclude = true :=
  (orchestrator_fallback_behavior 6 [wAgentA] cexState6 wAgentA none rfl
    (by decide)).1

/-- C6: a generation error surviving the retry layer degrades inside
generateAgentTurn to the fixed filler message with no tool call, and the
start-turn branch then records it as a completed turn and advances the
rotation through advanceTurn; in a non-boundary, non-stopped state the next
roster agent becomes the active turn. -/
theorem generation_error_degrades (agents : List Agent) (s : DebateState)
    (agent : Agent) (toolResp : Except Unit GenericResponse)
    (msgId : String) (now : Nat)
    (hfind : agents.find? (fun a => some a.id == s.currentTurnAgentId)
      = some agent) :
    generateAgentTurn (Except.error ())
      = { text := "Error generating response.", citations := none,
          toolCall := none,
          usage := some { promptTokenCount := none, candidatesTokenCount := none },
          searchQueries := 0 }
    ∧ startTurnStep agents s (Except.error ()) toolResp msgId now
        = advanceTurn agents
            { s with isThinking := true,
                     thinkingAgentId := s.currentTurnAgentId,
                     transcript := s.transcript ++
                       [mkMessage msgId agent.id "Error generating response."
                         now none (some s.phase) false none] }
    ∧ ∀ (i : Nat) (a2 : Agent), s.userRequestedStop = false →
        jsFindIndexOpt (fun a => some a.id == s.currentTurnAgentId) agents
          = some i →
        i + 1 < agents.length → agents[i+1]? = some a2 →
        s.phase ≠ DebatePhase.VOTING →
        (startTurnStep agents s (Except.error ()) toolResp msgId now).map
          DebateState.currentTurnAgentId = some (some a2.id) := by
  refine ⟨rfl, ?_, ?_⟩
  · simp only [startTurnStep, hfind, generateAgentTurn]
  · intro i a2 hstop hfi hlt ha2 hph
    simp only [startTurnStep, hfind, generateAgentTurn]
    simp only [advanceTurn, nextIndexOf, hstop, hfi]
    have hnb : ¬ (agents.length ≤ i + 1) := Nat.not_le.mpr hlt
    simp only [if_neg hnb, finishAdvance, if_neg hph, ha2, Option.map_some']
    simp


/-- Witness for generation_error_degrades: on the concrete two-agent roster
the errored turn still advances to the second agent. -/
theorem generation_error_degrades_witness :
    (startTurnStep [wAgentA, wAgentB] wStateBase (Except.error ())
        (Except.error ()) "m" 0).map DebateState.currentTurnAgentId
      = some (some wAgentB.id) :=
  (generation_error_degrades [wAgentA, wAgentB] wStateBase wAgentA
      (Except.error ()) "m" 0 rfl).2.2 0 wAgentB rfl rfl (by decide) rfl
    (by decide)

/-- Any element named by getLast? belongs to the list. -/
theorem lastMem {l : List Agent} {x : Agent} (h : l.getLast? = some x) :
    x ∈ l :=
  List.mem_of_mem_getLast? h

/-- A failing head steps the JavaScript findIndex to the tail, shifted. -/
theorem jsFindIndexOpt_cons_false {p : Agent → Bool} {a : Agent}
    {rest : List Agent} (h : p a = false) :
    jsFindIndexOpt p (a :: rest) = (jsFindIndexOpt p rest).map (· + 1) := by
  simp [jsFindIndexOpt, h]

/-- With pairwise-distinct ids, the JavaScript findIndex of the last agent
by id is the last index of the roster. -/
theorem jsFindIndexOpt_last (agents : List Agent) (aN : Agent)
    (hnd : (agents.map Agent.id).Nodup) (hlast : agents.getLast? = some aN) :
    jsFindIndexOpt (fun a => some a.id == some aN.id) agents
      = some (agents.length - 1) := by
  induction agents with
  | nil => cases hlast
  | cons a rest ih =>
      cases rest with
      | nil =>
          have ha : a = aN := by
            simpa using hlast
          subst ha
          simp [jsFindIndexOpt]
      | cons b rest2 =>
          have hlast2 : (b :: rest2).getLast? = some aN := hlast
          have hmem : aN ∈ b :: rest2 := lastMem hlast2
          have hnd2 : ((b :: rest2).map Agent.id).Nodup :=
            (List.nodup_cons.mp hnd).2
          have hnotin : a.id ∉ (b :: rest2).map Agent.id :=
            (List.nodup_cons.mp hnd).1
          have hne : (some a.id == some aN.id) = false := by
            apply beq_eq_false_iff_ne.mpr
            intro hcon
            apply hnotin
            rw [Option.some.inj hcon]
            exact List.mem_map_of_mem Agent.id hmem
          have ihr := ih hnd2 hlast2
          rw [jsFindIndexOpt_cons_false hne, ihr, Option.map_some']
          congr 1

/-- Projections of a successful finishAdvance: mode and maxRounds are
preserved, the phase becomes the requested one, and the round becomes the
requested one except on the immediate-VOTING path, which leaves it
untouched. -/
theorem finishAdvance_proj (agents : List Agent) (prev : DebateState)
    (ni : Nat) (np : DebatePhase) (nr : Nat) {t : DebateState}
    (h : finishAdvance agents prev ni np nr = some t) :
    t.mode = prev.mode ∧ t.maxRounds = prev.maxRounds ∧ t.phase = np
    ∧ t.currentRound
        = (if np = DebatePhase.VOTING then prev.currentRound else nr) := by
  unfold finishAdvance at h
  split at h
  case isTrue hv =>
    cases Option.some.inj h
    exact ⟨rfl, rfl, hv.symm, by rw [if_pos hv]⟩
  case isFalse hv =>
    cases ha : agents[ni]? with
    | none => simp only [ha] at h; cases h
    | some a =>
        simp only [ha] at h
        cases Option.some.inj h
        exact ⟨rfl, rfl, rfl, by rw [if_neg hv]⟩

/-- Round accounting of one advanceTurn step in fixed mode: mode and
maxRounds never change, and the round increments exactly on a
SYNTHESIS-to-REBUTTAL loop-back, which requires round < maxRounds; every
other step leaves the round unchanged. -/
theorem advStep_round (agents : List Agent) {s t : DebateState}
    (h : advStep agents s t) :
    t.mode = s.mode ∧ t.maxRounds = s.maxRounds
    ∧ (s.mode = DebateMode.FIXED →
        ((s.phase = DebatePhase.SYNTHESIS ∧ t.phase = DebatePhase.REBUTTAL) →
            t.currentRound = s.currentRound + 1
            ∧ s.currentRound < s.maxRounds)
        ∧ (¬(s.phase = DebatePhase.SYNTHESIS ∧ t.phase = DebatePhase.REBUTTAL) →
            t.currentRound = s.currentRound)) := by
  unfold advStep advanceTurn at h
  split at h
  · cases Option.some.inj h
    refine ⟨rfl, rfl, fun _ => ⟨fun hc => ?_, fun _ => rfl⟩⟩
    exact absurd hc.2 (by simp)
  · split at h
    · split at h
      · obtain ⟨hm, hmax, hp, hr⟩ := finishAdvance_proj _ _ _ _ _ h
        refine ⟨hm, hmax, fun _ => ⟨fun hc => ?_, fun _ => by simpa using hr⟩⟩
        simp [*] at hc
      · obtain ⟨hm, hmax, hp, hr⟩ := finishAdvance_proj _ _ _ _ _ h
        refine ⟨hm, hmax, fun _ => ⟨fun hc => ?_, fun _ => by simpa using hr⟩⟩
        rw [hp] at hc
        exact absurd hc.2 (by simp)
      · split at h
        · split at h
          · obtain ⟨hm, hmax, hp, hr⟩ := finishAdvance_proj _ _ _ _ _ h
            refine ⟨hm, hmax, fun _ => ⟨fun hc => ?_, fun _ => by simpa using hr⟩⟩
            rw [hp] at hc
            exact absurd hc.2 (by simp)
          · obtain ⟨hm, hmax, hp, hr⟩ := finishAdvance_proj _ _ _ _ _ h
            refine ⟨hm, hmax, fun _ => ⟨fun _ => ⟨by simpa using hr, ?_⟩,
              fun hnc => ?_⟩⟩
            · omega
            · exact absurd ⟨by assumption, hp⟩ hnc
        · cases Option.some.inj h
          refine ⟨rfl, rfl, fun hfx => ?_⟩
          exact absurd ((by assumption : s.mode = DebateMode.AUTO) ▸ hfx)
            (by simp)
      · obtain ⟨hm, hmax, hp, hr⟩ := finishAdvance_proj _ _ _ _ _ h
        refine ⟨hm, hmax, fun _ => ⟨fun hc => ?_, fun _ => ?_⟩⟩
        · rw [hp] at hc
          obtain ⟨hc1, hc2⟩ := hc
          rw [hc1] at hc2
          exact absurd hc2 (by simp [*])
        · rw [hr]
          exact ite_self _
    · obtain ⟨hm, hmax, hp, hr⟩ := finishAdvance_proj _ _ _ _ _ h
      refine ⟨hm, hmax, fun _ => ⟨fun hc => ?_, fun _ => ?_⟩⟩
      · rw [hp] at hc
        obtain ⟨hc1, hc2⟩ := hc
        rw [hc1] at hc2
        exact absurd hc2 (by simp)
      · rw [hr]
        exact ite_self _

/-- Along any advanceTurn trace in fixed mode, the number of
SYNTHESIS-to-REBUTTAL loop-backs is bounded by maxRounds minus the starting
round: each loop-back spends one unit of the remaining round budget. -/
theorem loopbackCount_le (agents : List Agent) :
    ∀ (l : List DebateState) (s : DebateState), s.mode = DebateMode.FIXED →
      List.Chain (advStep agents) s l →
      loopbackCount s l ≤ s.maxRounds - s.currentRound := by
  intro l
  induction l with
  | nil =>
      intro s _ _
      simp [loopbackCount]
  | cons t rest ih =>
      intro s hm hch
      cases hch with
      | cons hst hch2 =>
          obtain ⟨hmode, hmax, hfix⟩ := advStep_round agents hst
          have hm2 : t.mode = DebateMode.FIXED := by rw [hmode, hm]
          have iht := ih t hm2 hch2
          rw [hmax] at iht
          simp only [loopbackCount]
          by_cases hc : s.phase = DebatePhase.SYNTHESIS
            ∧ t.phase = DebatePhase.REBUTTAL
          · obtain ⟨hr1, hr2⟩ := (hfix hm).1 hc
            rw [if_pos hc]
            rw [hr1] at iht
            omega
          · rw [if_neg hc]
            rw [(hfix hm).2 hc] at iht
            omega

/-- C1: in fixed mode, when the roster-final agent finishes a SYNTHESIS
turn, advanceTurn transitions to VOTING with a cleared turn if the round has
reached maxRounds, and otherwise increments the round by exactly one, sets
REBUTTAL and hands the turn to the first agent; moreover along any
advanceTurn trace the SYNTHESIS-to-REBUTTAL loop-backs are bounded by the
remaining round budget, so the REBUTTAL/SYNTHESIS loop runs at most
maxRounds times before VOTING is forced. -/
theorem advanceTurn_fixed_synthesis_boundary
    (agents : List Agent) (s : DebateState) (a0 aN : Agent)
    (hhead : agents.head? = some a0) (hlast : agents.getLast? = some aN)
    (hnd : (agents.map Agent.id).Nodup)
    (hmode : s.mode = DebateMode.FIXED)
    (hphase : s.phase = DebatePhase.SYNTHESIS)
    (hstop : s.userRequestedStop = false)
    (hturn : s.currentTurnAgentId = some aN.id) :
    (s.maxRounds ≤ s.currentRound →
        advanceTurn agents s
          = some { s with currentTurnAgentId := none,
                          phase := DebatePhase.VOTING, isThinking := false })
    ∧ (s.currentRound < s.maxRounds →
        advanceTurn agents s
          = some { s with currentTurnAgentId := some a0.id,
                          phase := DebatePhase.REBUTTAL,
                          currentRound := s.currentRound + 1,
                          isThinking := false, thinkingAgentId := none })
    ∧ ∀ l : List DebateState, List.Chain (advStep agents) s l →
        loopbackCount s l ≤ s.maxRounds - s.currentRound := by
  have hlen : 0 < agents.length := by
    cases agents with
    | nil => cases hhead
    | cons a rest => simp
  have hni : nextIndexOf agents s.currentTurnAgentId = agents.length := by
    rw [hturn]
    simp only [nextIndexOf, jsFindIndexOpt_last agents aN hnd hlast]
    omega
  have hbound : agents.length ≤ nextIndexOf agents s.currentTurnAgentId := by
    rw [hni]
  have hget0 : agents[0]? = some a0 := by
    rw [← List.head?_eq_getElem?]
    exact hhead
  refine ⟨?_, ?_, fun l hch => loopbackCount_le agents l s hmode hch⟩
  · intro hge
    simp only [advanceTurn, hstop, Bool.false_eq_true, if_false, if_pos hbound,
      hphase, hmode, if_pos hge, finishAdvance]
    simp
  · intro hlt
    have hnge : ¬ (s.maxRounds ≤ s.currentRound) := Nat.not_le.mpr hlt
    simp only [advanceTurn, hstop, Bool.false_eq_true, if_false, if_pos hbound,
      hphase, hmode, if_neg hnge, finishAdvance, hget0]
    simp

/-- A concrete fixed-mode state at the synthesis boundary with the final
round reached. -/
def wStateSynth : DebateState :=
  { wStateBase with phase := DebatePhase.SYNTHESIS, currentRound := 2,
                    maxRounds := 2, currentTurnAgentId := some "b" }

/-- Witness for advanceTurn_fixed_synthesis_boundary: on the concrete
two-agent roster at round 2 of 2, the boundary forces VOTING. -/
theorem advanceTurn_fixed_synthesis_boundary_witness :
    advanceTurn [wAgentA, wAgentB] wStateSynth
      = some { wStateSynth with currentTurnAgentId := none,
                                phase := DebatePhase.VOTING,
                                isThinking := false } :=
  (advanceTurn_fixed_synthesis_boundary [wAgentA, wAgentB] wStateSynth
    wAgentA wAgentB rfl rfl (by decide) rfl rfl rfl rfl).1 (by decide)

end LLMCouncil
